import Mathlib

/-!
# Verification of the Clustal-Omega application adapter

Shallow embedding of `src/biotite/application/clustalo/app.py`
(`ClustalOmegaApp`).  Pure data is modelled directly; the stateful adapter
object is a record threaded explicitly through the operations; Python
exceptions become an `Except` error channel tagged with the raised exception
class.  Components imported by the module but not part of the source slice
(the `Application`/`MSAApp` base classes with their `requires_state` guard and
lifecycle, the `Tree` Newick codec) are modelled from the specification and
marked as such in their doc comments.
-/

namespace ClustalO

/-- Python exception classes raised (or propagated) by the adapter.
`typeError`/`valueError` are the built-in `TypeError`/`ValueError` raised
literally in the source; `appStateError` models the error raised by the
`requires_state` guard of the application base component; `indexError` models
`sequences[0]` on an empty list. -/
inductive PyErr where
  | typeError (msg : String)
  | valueError (msg : String)
  | appStateError (msg : String)
  | indexError (msg : String)
  deriving DecidableEq, Repr

/-- Classification of a sequence object, as observed by the constructor's
`isinstance` checks: a `NucleotideSequence`, a `ProteinSequence`, or any other
object whose class name is carried for the error message. -/
inductive SeqKind where
  | nucleotide
  | protein
  | unsupported (typeName : String)
  deriving DecidableEq, Repr

/-- Modelled from the spec: the lifecycle states of the application base
component (CREATED → RUNNING → FINISHED → JOINED); the adapter's guarded
operations compare against these. -/
inductive AppState where
  | CREATED
  | RUNNING
  | FINISHED
  | JOINED
  deriving DecidableEq, Repr

/-- Modelled from the spec: a guide tree from the phylo component (not under
src/).  The source only observes its leaf count (`len(tree)`) and its
single-line Newick serialization (`str(tree)`). -/
structure Tree where
  newick : String
  leaf_count : Nat
  deriving DecidableEq, Repr

/-- Modelled from the spec: the tree component's Newick parser
(`Tree.from_newick`, not under src/): parses single-line Newick text into a
guide tree; its leaves are the comma-separated taxa. -/
def Tree.from_newick (s : String) : Tree :=
  { newick := s, leaf_count := s.toList.count ',' + 1 }

/-- The file-system paths the adapter works with: the four temporary file
slots allocated by `temp_file` in the constructor, and the input/output FASTA
paths provided by the `MSAApp` base component. -/
structure TempPaths where
  in_dist_matrix : String
  out_dist_matrix : String
  in_tree : String
  out_tree : String
  input_file : String
  output_file : String
  deriving DecidableEq, Repr

/-- A distance matrix: rows of rational values (the source stores a float
`ndarray`; values are modelled as exact rationals). -/
abbrev DistMatrix := List (List ℚ)

/-- The adapter's state: the fields set by `ClustalOmegaApp.__init__` plus the
lifecycle state owned by the application base component. -/
structure ClustalOmegaApp where
  seqtype : String
  seq_count : Nat
  mbed : Bool
  dist_matrix : Option DistMatrix
  tree : Option Tree
  paths : TempPaths
  state : AppState
  deriving DecidableEq, Repr

/-- Constructor `ClustalOmegaApp.__init__`: classifies `sequences[0]` to pick the
`--seqtype` discriminator, raising `TypeError` when it is neither a nucleotide
nor a protein sequence; records the sequence count; enables mbed (approximate)
mode; leaves distance matrix and guide tree unset.  The temp-file paths
produced by `temp_file` and the base component's input/output file paths are
passed in as `paths`.  `sequences[0]` on an empty collection raises
`IndexError`. -/
def init (sequences : List SeqKind) (paths : TempPaths) :
    Except PyErr ClustalOmegaApp :=
  match sequences with
  | [] => .error (.indexError "list index out of range")
  | s0 :: _ =>
    match s0 with
    | .nucleotide =>
        .ok { seqtype := "DNA", seq_count := sequences.length, mbed := true,
              dist_matrix := none, tree := none, paths := paths,
              state := AppState.CREATED }
    | .protein =>
        .ok { seqtype := "Protein", seq_count := sequences.length, mbed := true,
              dist_matrix := none, tree := none, paths := paths,
              state := AppState.CREATED }
    | .unsupported typeName =>
        .error (.typeError
          ("Clustal-Omega cannot align sequences of type " ++ typeName))

/-- Modelled from the spec: the `requires_state` decorator of the application
base component (not under src/): the guarded operation body runs only when the
app is in the required lifecycle state; in any other state a StateKind error
is raised and the body never executes. -/
def requires_state {α : Type} (required : AppState) (app : ClustalOmegaApp)
    (body : ClustalOmegaApp → Except PyErr α) : Except PyErr α :=
  if app.state = required then
    body app
  else
    .error (.appStateError "The application is in an invalid state for this operation")

/-- Method `full_matrix_calculation` (guarded: CREATED): switches off mbed mode. -/
def full_matrix_calculation (app : ClustalOmegaApp) :
    Except PyErr ClustalOmegaApp :=
  requires_state AppState.CREATED app fun a =>
    .ok { a with mbed := false }

/-- Method `set_distance_matrix` (guarded: CREATED): stores the matrix (the source
converts it to float dtype; values are already rationals here). -/
def set_distance_matrix (app : ClustalOmegaApp) (matrix : DistMatrix) :
    Except PyErr ClustalOmegaApp :=
  requires_state AppState.CREATED app fun a =>
    .ok { a with dist_matrix := some matrix }

/-- Method `get_distance_matrix` (guarded: JOINED): raises `ValueError` when mbed
mode is active (no matrix was ever computed), otherwise returns the stored
matrix. -/
def get_distance_matrix (app : ClustalOmegaApp) :
    Except PyErr (Option DistMatrix) :=
  requires_state AppState.JOINED app fun a =>
    if a.mbed then
      .error (.valueError
        "Getting the distance matrix requires 'full_matrix_calculation()'")
    else
      .ok a.dist_matrix

/-- Method `set_guide_tree` (guarded: CREATED): raises `ValueError` when the tree's
leaf count differs from the sequence count, otherwise records the tree. -/
def set_guide_tree (app : ClustalOmegaApp) (tree : Tree) :
    Except PyErr ClustalOmegaApp :=
  requires_state AppState.CREATED app fun a =>
    if a.seq_count ≠ tree.leaf_count then
      .error (.valueError
        ("Tree with " ++ toString tree.leaf_count ++
         " leaves is not sufficient for {self._seq_count} sequences, must be equal"))
    else
      .ok { a with tree := some tree }

/-- Method `get_guide_tree` (guarded: JOINED): returns the stored tree. -/
def get_guide_tree (app : ClustalOmegaApp) : Except PyErr (Option Tree) :=
  requires_state AppState.JOINED app fun a =>
    .ok a.tree

/-! ## Text formats

`np.savetxt` / `np.loadtxt` as used by `run` / `evaluate`, modelled at the
character level: decimal rendering of naturals, `%.5f` fixed-point rendering
of a value, space-separated fields, one line per matrix row. -/

/-- The decimal digit characters. -/
def digitCharList : List Char :=
  ['0', '1', '2', '3', '4', '5', '6', '7', '8', '9']

/-- The character for a single decimal digit. -/
def digitChar (d : Nat) : Char :=
  digitCharList.getD d '0'

/-- The numeric value of a decimal digit character. -/
def charDigit (c : Char) : Nat :=
  c.toNat - 48

/-- Decimal rendering of a natural number (most significant digit first),
as `%d` / `str` produce it. -/
def natChars (n : Nat) : List Char :=
  if n = 0 then ['0'] else (Nat.digits 10 n).reverse.map digitChar

/-- Value of a big-endian decimal digit string. -/
def charsNat (cs : List Char) : Nat :=
  Nat.ofDigits 10 ((cs.map charDigit).reverse)

/-- Left-pad a digit string with zeros to width 5, as `%.5f` pads the
fractional part. -/
def pad5 (cs : List Char) : List Char :=
  List.replicate (5 - cs.length) '0' ++ cs

/-- Fixed-point `%.5f` rendering of a rational: the value rounded to 5 decimal places,
written as optional sign, integer part, dot, and exactly five fractional
digits.  (The binary-float rounding of C `printf` is modelled as rational
rounding to the nearest multiple of 10^-5.) -/
def fmt5 (q : ℚ) : List Char :=
  (if round (q * 100000) < 0 then ['-'] else []) ++
    (natChars ((round (q * 100000)).natAbs / 100000) ++
      '.' :: pad5 (natChars ((round (q * 100000)).natAbs % 100000)))

/-- The value actually recorded by `%.5f`: the input rounded to the nearest
multiple of 10^-5. -/
def round5 (q : ℚ) : ℚ :=
  ((round (q * 100000) : ℤ) : ℚ) / 100000

/-- Join fields with single spaces (the default `np.savetxt` delimiter). -/
def joinSpace : List (List Char) → List Char
  | [] => []
  | [f] => f
  | f :: f2 :: fs => f ++ ' ' :: joinSpace (f2 :: fs)

/-- Split a line at spaces (accumulator holds the current field reversed),
as `np.loadtxt` tokenizes a whitespace-delimited row. -/
def splitAux (cur : List Char) : List Char → List (List Char)
  | [] => [cur.reverse]
  | c :: cs => if c = ' ' then cur.reverse :: splitAux [] cs else splitAux (c :: cur) cs

/-- Split a line into its whitespace-separated fields. -/
def splitFields (cs : List Char) : List (List Char) :=
  splitAux [] cs

/-- Value of an unsigned decimal field: integer part before the first dot,
fractional part after it. -/
def parseUnsigned (cs : List Char) : ℚ :=
  match cs.dropWhile (fun c => c ≠ '.') with
  | [] => (charsNat (cs.takeWhile (fun c => c ≠ '.')) : ℚ)
  | _ :: fp => (charsNat (cs.takeWhile (fun c => c ≠ '.')) : ℚ) +
      (charsNat fp : ℚ) / (10 : ℚ) ^ fp.length

/-- Float parsing of one field, as `np.loadtxt`'s float converter: optional
leading minus sign, then an unsigned decimal. -/
def parseField (cs : List Char) : ℚ :=
  if cs.head? = some '-' then -parseUnsigned (cs.drop 1) else parseUnsigned cs

/-- The data rows written by `np.savetxt` in `run`: row `i` of the matrix is
prefixed with its index `i` (the `np.concatenate` with `np.arange`), the index
formatted `%d` and every matrix entry `%.5f`, space-separated. -/
def matrixLines (i : Nat) : DistMatrix → List (List Char)
  | [] => []
  | row :: rest =>
      joinSpace (natChars i :: row.map fmt5) :: matrixLines (i + 1) rest

/-- The whole distance-matrix file written by `run`: the header line (the
sequence count, `header=str(self._seq_count)` with `comments=""`), then the
indexed data rows. -/
def savetxt_dist (n : Nat) (m : DistMatrix) : List String :=
  String.mk (natChars n) :: (matrixLines 0 m).map String.mk

/-- Reader `np.loadtxt(..., skiprows=1, dtype=float)` as used by `evaluate`: drop the
header line, then parse every space-separated field of every line as a
float. -/
def np_loadtxt_skip1 (lines : List String) : DistMatrix :=
  (lines.drop 1).map fun line => (splitFields line.toList).map parseField

/-- Slicing `self._dist_matrix[:, 1:]`: drop the leading index column. -/
def drop_index_column (m : DistMatrix) : DistMatrix :=
  m.map (List.drop 1)

/-- Python `.replace("\n", "")` on the tree file content. -/
def removeNewlines (s : String) : String :=
  String.mk (s.toList.filter (fun c => c ≠ '\n'))

/-! ## `run` and `evaluate` -/

/-- Everything `run` does before delegating to the base component: the
assembled command-line argument list and the contents written to the
input-distance-matrix and input-tree temp files (`none` when the file is not
written). -/
structure RunEffect where
  args : List String
  dist_matrix_file : Option (List String)
  tree_file : Option String
  app : ClustalOmegaApp
  deriving DecidableEq, Repr

/-- Method `ClustalOmegaApp.run`: assembles the argument list — the fixed part, then
`--guidetree-out` only when no guide tree was supplied, then
`--full`/`--distmat-out` only in full-matrix mode, then `--distmat-in` (after
serializing the supplied matrix) and `--guidetree-in` (after writing
`str(tree)`) when those inputs exist — and hands over to the base component
(modelled from the spec: the base transitions CREATED → RUNNING and spawns
the process). -/
def run (app : ClustalOmegaApp) : RunEffect :=
  { args :=
      ["--in", app.paths.input_file,
       "--out", app.paths.output_file,
       "--seqtype", app.seqtype,
       "--output-order=tree-order"] ++
      -- ClustalOmega does not like when a tree is set as input and output
      -- -> Only request tree output when no tree is input
      (match app.tree with
       | none => ["--guidetree-out", app.paths.out_tree]
       | some _ => []) ++
      (if app.mbed then []
       else ["--full", "--distmat-out", app.paths.out_dist_matrix]) ++
      (match app.dist_matrix with
       | some _ => ["--distmat-in", app.paths.in_dist_matrix]
       | none => []) ++
      (match app.tree with
       | some _ => ["--guidetree-in", app.paths.in_tree]
       | none => []),
    dist_matrix_file :=
      match app.dist_matrix with
      | some m => some (savetxt_dist app.seq_count m)
      | none => none,
    tree_file :=
      match app.tree with
      | some t => some t.newick
      | none => none,
    app := { app with state := AppState.RUNNING } }

/-- The tool's output files as found on disk when `evaluate` runs: the
contents of the output-distance-matrix file (as lines) and of the output
guide-tree file. -/
structure ToolOutput where
  dist_lines : List String
  tree_text : String
  deriving DecidableEq, Repr

/-- First statement of `ClustalOmegaApp.evaluate`: in full-matrix mode,
reads the distance-matrix output file back (skipping the one-line header)
and drops the index column, overwriting the stored matrix. -/
def evaluate_dist_step (app : ClustalOmegaApp) (out : ToolOutput) :
    ClustalOmegaApp :=
  if app.mbed then app
  else { app with
           dist_matrix := some (drop_index_column (np_loadtxt_skip1 out.dist_lines)) }

/-- Second statement of `evaluate`: only read the output tree if no tree was
input, stripping newline characters and parsing the Newick text. -/
def evaluate_tree_step (app : ClustalOmegaApp) (out : ToolOutput) :
    ClustalOmegaApp :=
  match app.tree with
  | none => { app with tree := some (Tree.from_newick (removeNewlines out.tree_text)) }
  | some _ => app

/-- Method `evaluate` overall: the distance-matrix read-back statement, then the
tree read-back statement; the base component then transitions the app to
JOINED (modelled from the spec). -/
def evaluate (app : ClustalOmegaApp) (out : ToolOutput) : ClustalOmegaApp :=
  { evaluate_tree_step (evaluate_dist_step app out) out with
    state := AppState.JOINED }

/-- The command-line option tokens the adapter can emit. -/
def cli_flags : List String :=
  ["--in", "--out", "--seqtype", "--output-order=tree-order", "--guidetree-out",
   "--full", "--distmat-out", "--distmat-in", "--guidetree-in"]

/-- Whether a call outcome is the error raised by the `requires_state`
lifecycle guard (a StateKind error), as opposed to any other outcome. -/
def raises_state_error {α : Type} : Except PyErr α → Bool
  | .error (.appStateError _) => true
  | _ => false

/-! ## Sample values used to instantiate the theorems -/

/-- Concrete temp/input/output paths for instantiations. -/
def samplePaths : TempPaths :=
  { in_dist_matrix := "biotite_in.mat", out_dist_matrix := "biotite_out.mat",
    in_tree := "biotite_in.tree", out_tree := "biotite_out.tree",
    input_file := "input.fa", output_file := "output.fa" }

/-- A concrete guide tree with two leaves. -/
def sampleTree2 : Tree :=
  { newick := "(0,1);", leaf_count := 2 }

/-- A freshly constructed two-protein adapter. -/
def sampleCreated : ClustalOmegaApp :=
  { seqtype := "Protein", seq_count := 2, mbed := true, dist_matrix := none,
    tree := none, paths := samplePaths, state := AppState.CREATED }

/-- The sample adapter while its process runs. -/
def sampleRunning : ClustalOmegaApp :=
  { sampleCreated with state := AppState.RUNNING }

/-- The sample adapter joined after a default (mbed) run. -/
def sampleJoinedMbed : ClustalOmegaApp :=
  { sampleCreated with state := AppState.JOINED }

/-- A caller-supplied 2×2 distance matrix. -/
def sampleMatrix : DistMatrix :=
  [[0, 1/2], [1/2, 0]]

/-- The sample adapter configured for full-matrix mode with a supplied
matrix, joined. -/
def sampleJoinedFull : ClustalOmegaApp :=
  { sampleCreated with
    mbed := false, dist_matrix := some sampleMatrix,
    state := AppState.JOINED }

/-- The sample adapter configured for full-matrix mode with a supplied
matrix, still in CREATED state. -/
def sampleCreatedFull : ClustalOmegaApp :=
  { sampleCreated with mbed := false, dist_matrix := some sampleMatrix }

/-- The sample adapter with a supplied guide tree, still CREATED. -/
def sampleCreatedWithTree : ClustalOmegaApp :=
  { sampleCreated with tree := some sampleTree2 }

/-- Concrete tool output: a 2×2 matrix file and a Newick tree line. -/
def sampleOut : ToolOutput :=
  { dist_lines := ["2", "0 0.00000 0.12000", "1 0.12000 0.00000"],
    tree_text := "(0,1);\n" }

/-! ## Helper lemmas: decimal digits -/

theorem digitChar_mem (d : Nat) : digitChar d ∈ digitCharList := by
  rcases Nat.lt_or_ge d 10 with h | h
  · interval_cases d <;> decide
  · unfold digitChar
    rw [List.getD_eq_default]
    · decide
    · simpa [digitCharList] using h

theorem mem_digitCharList_ne_space {c : Char} (h : c ∈ digitCharList) : c ≠ ' ' := by
  fin_cases h <;> decide

theorem mem_digitCharList_ne_dot {c : Char} (h : c ∈ digitCharList) : c ≠ '.' := by
  fin_cases h <;> decide

theorem mem_digitCharList_ne_minus {c : Char} (h : c ∈ digitCharList) : c ≠ '-' := by
  fin_cases h <;> decide

theorem digitChar_ne_space (d : Nat) : digitChar d ≠ ' ' :=
  mem_digitCharList_ne_space (digitChar_mem d)

theorem digitChar_ne_dot (d : Nat) : digitChar d ≠ '.' :=
  mem_digitCharList_ne_dot (digitChar_mem d)

theorem digitChar_ne_minus (d : Nat) : digitChar d ≠ '-' :=
  mem_digitCharList_ne_minus (digitChar_mem d)

theorem charDigit_digitChar {d : Nat} (h : d < 10) : charDigit (digitChar d) = d := by
  interval_cases d <;> decide

theorem natChars_ne_nil (n : Nat) : natChars n ≠ [] := by
  unfold natChars
  split
  · simp
  · rename_i h
    simp [Nat.digits_ne_nil_iff_ne_zero.mpr h]

theorem mem_natChars {c : Char} {n : Nat} (h : c ∈ natChars n) :
    ∃ d, c = digitChar d := by
  unfold natChars at h
  split at h
  · refine ⟨0, ?_⟩
    simp at h
    simp [h]
    decide
  · rw [List.mem_map] at h
    obtain ⟨d, _, hd⟩ := h
    exact ⟨d, hd.symm⟩

theorem natChars_no_space {c : Char} {n : Nat} (h : c ∈ natChars n) : c ≠ ' ' := by
  obtain ⟨d, rfl⟩ := mem_natChars h
  exact digitChar_ne_space d

theorem natChars_no_dot {c : Char} {n : Nat} (h : c ∈ natChars n) : c ≠ '.' := by
  obtain ⟨d, rfl⟩ := mem_natChars h
  exact digitChar_ne_dot d

theorem natChars_no_minus {c : Char} {n : Nat} (h : c ∈ natChars n) : c ≠ '-' := by
  obtain ⟨d, rfl⟩ := mem_natChars h
  exact digitChar_ne_minus d

theorem charsNat_natChars (n : Nat) : charsNat (natChars n) = n := by
  unfold natChars
  split
  · rename_i h
    subst h
    decide
  · unfold charsNat
    rw [List.map_map]
    have hcongr : (Nat.digits 10 n).reverse.map (charDigit ∘ digitChar) =
        (Nat.digits 10 n).reverse.map id := by
      refine List.map_congr_left fun d hd => ?_
      have hlt : d < 10 :=
        Nat.digits_lt_base (by norm_num) (List.mem_reverse.mp hd)
      simpa using charDigit_digitChar hlt
    rw [hcongr, List.map_id, List.reverse_reverse, Nat.ofDigits_digits]

theorem ofDigits_replicate_zero (k : Nat) :
    Nat.ofDigits 10 (List.replicate k 0) = 0 := by
  induction k with
  | zero => simp [Nat.ofDigits]
  | succ n ih => simp [List.replicate_succ, Nat.ofDigits_cons, ih]

theorem charsNat_pad_zeros (k : Nat) (cs : List Char) :
    charsNat (List.replicate k '0' ++ cs) = charsNat cs := by
  unfold charsNat
  rw [List.map_append, List.reverse_append]
  have hrep : (List.replicate k '0').map charDigit = List.replicate k 0 := by
    rw [List.map_replicate]
    have h0 : charDigit '0' = 0 := by decide
    rw [h0]
  rw [hrep, List.reverse_replicate]
  rw [Nat.ofDigits_append]
  simp [ofDigits_replicate_zero]

theorem natChars_length_le {m : Nat} (h : m < 100000) : (natChars m).length ≤ 5 := by
  unfold natChars
  split
  · simp
  · rename_i hm
    rw [List.length_map, List.length_reverse]
    by_contra hlen
    push_neg at hlen
    have h6 : 6 ≤ (Nat.digits 10 m).length := hlen
    have hle : (10 : ℕ) ^ (Nat.digits 10 m).length ≤ 10 * m :=
      Nat.base_pow_length_digits_le 10 m (by norm_num) hm
    have hlow : (10 : ℕ) ^ 6 ≤ 10 ^ (Nat.digits 10 m).length :=
      Nat.pow_le_pow_right (by norm_num) h6
    have hbig : (1000000 : ℕ) ≤ 10 * m := by
      calc (1000000 : ℕ) = 10 ^ 6 := by norm_num
        _ ≤ 10 ^ (Nat.digits 10 m).length := hlow
        _ ≤ 10 * m := hle
    omega

/-! ## Helper lemmas: field and line parsing -/

theorem takeWhile_no_dot (cs : List Char) (h : ∀ c ∈ cs, c ≠ '.') :
    cs.takeWhile (fun c => c ≠ '.') = cs := by
  induction cs with
  | nil => rfl
  | cons a t ih =>
    have ha : (decide (a ≠ '.')) = true := by
      simp [h a (List.mem_cons_self a t)]
    rw [List.takeWhile_cons, if_pos ha, ih fun c hc => h c (List.mem_cons_of_mem a hc)]

theorem dropWhile_no_dot (cs : List Char) (h : ∀ c ∈ cs, c ≠ '.') :
    cs.dropWhile (fun c => c ≠ '.') = [] := by
  induction cs with
  | nil => rfl
  | cons a t ih =>
    have ha : (decide (a ≠ '.')) = true := by
      simp [h a (List.mem_cons_self a t)]
    rw [List.dropWhile_cons, if_pos ha]
    exact ih fun c hc => h c (List.mem_cons_of_mem a hc)

theorem takeWhile_append_dot (ip fp : List Char) (h : ∀ c ∈ ip, c ≠ '.') :
    (ip ++ '.' :: fp).takeWhile (fun c => c ≠ '.') = ip := by
  induction ip with
  | nil => simp [List.takeWhile_cons]
  | cons a t ih =>
    have ha : (decide (a ≠ '.')) = true := by
      simp [h a (List.mem_cons_self a t)]
    rw [List.cons_append, List.takeWhile_cons, if_pos ha,
      ih fun c hc => h c (List.mem_cons_of_mem a hc)]

theorem dropWhile_append_dot (ip fp : List Char) (h : ∀ c ∈ ip, c ≠ '.') :
    (ip ++ '.' :: fp).dropWhile (fun c => c ≠ '.') = '.' :: fp := by
  induction ip with
  | nil => simp [List.dropWhile_cons]
  | cons a t ih =>
    have ha : (decide (a ≠ '.')) = true := by
      simp [h a (List.mem_cons_self a t)]
    rw [List.cons_append, List.dropWhile_cons, if_pos ha]
    exact ih fun c hc => h c (List.mem_cons_of_mem a hc)

theorem splitAux_no_space (cs : List Char) (acc : List Char)
    (h : ∀ c ∈ cs, c ≠ ' ') : splitAux acc cs = [acc.reverse ++ cs] := by
  induction cs generalizing acc with
  | nil => simp [splitAux]
  | cons a t ih =>
    have ha : a ≠ ' ' := h a (List.mem_cons_self a t)
    rw [splitAux, if_neg ha, ih (a :: acc) fun c hc => h c (List.mem_cons_of_mem a hc)]
    simp

theorem splitAux_append_space (f rest acc : List Char) (h : ∀ c ∈ f, c ≠ ' ') :
    splitAux acc (f ++ ' ' :: rest) = (acc.reverse ++ f) :: splitAux [] rest := by
  induction f generalizing acc with
  | nil => simp [splitAux]
  | cons a t ih =>
    have ha : a ≠ ' ' := h a (List.mem_cons_self a t)
    rw [List.cons_append, splitAux, if_neg ha,
      ih (a :: acc) fun c hc => h c (List.mem_cons_of_mem a hc)]
    simp

theorem splitFields_joinSpace (fs : List (List Char)) (hne : fs ≠ [])
    (h : ∀ f ∈ fs, ∀ c ∈ f, c ≠ ' ') : splitFields (joinSpace fs) = fs := by
  induction fs with
  | nil => exact absurd rfl hne
  | cons f tail ih =>
    cases tail with
    | nil =>
      rw [joinSpace, splitFields, splitAux_no_space f [] (h f (List.mem_cons_self f []))]
      simp
    | cons f2 rest =>
      rw [joinSpace, splitFields,
        splitAux_append_space f _ [] (h f (List.mem_cons_self f _))]
      simp only [List.reverse_nil, List.nil_append, List.cons.injEq, true_and]
      exact ih (by simp) fun g hg c hc => h g (List.mem_cons_of_mem f hg) c hc

theorem fmt5_no_space (q : ℚ) : ∀ c ∈ fmt5 q, c ≠ ' ' := by
  intro c hc
  unfold fmt5 at hc
  rcases List.mem_append.mp hc with hc | hc
  · split at hc
    · rw [List.mem_singleton.mp hc]
      decide
    · exact absurd hc (List.not_mem_nil c)
  · rcases List.mem_append.mp hc with hc | hc
    · exact natChars_no_space hc
    · rcases List.mem_cons.mp hc with rfl | hc
      · decide
      · unfold pad5 at hc
        rcases List.mem_append.mp hc with hc | hc
        · rw [List.eq_of_mem_replicate hc]
          decide
        · exact natChars_no_space hc

theorem parseUnsigned_natChars (n : Nat) : parseUnsigned (natChars n) = (n : ℚ) := by
  unfold parseUnsigned
  rw [dropWhile_no_dot _ fun c hc => natChars_no_dot hc]
  rw [takeWhile_no_dot _ fun c hc => natChars_no_dot hc]
  rw [charsNat_natChars]

theorem parseField_natChars (n : Nat) : parseField (natChars n) = (n : ℚ) := by
  unfold parseField
  obtain ⟨a, t, hcs⟩ := List.exists_cons_of_ne_nil (natChars_ne_nil n)
  have ha : a ≠ '-' := natChars_no_minus (hcs ▸ List.mem_cons_self a t)
  rw [hcs, if_neg (by simp [ha]), ← hcs, parseUnsigned_natChars]

theorem nat_div_add_mod_q (a : Nat) :
    ((a / 100000 : ℕ) : ℚ) + ((a % 100000 : ℕ) : ℚ) / 100000 = (a : ℚ) / 100000 := by
  have h : (100000 : ℚ) * ((a / 100000 : ℕ) : ℚ) + ((a % 100000 : ℕ) : ℚ) = (a : ℚ) := by
    exact_mod_cast congrArg (Nat.cast : ℕ → ℚ) (Nat.div_add_mod a 100000)
  field_simp
  linarith

theorem parseUnsigned_body (a : Nat) :
    parseUnsigned (natChars (a / 100000) ++ '.' :: pad5 (natChars (a % 100000))) =
      (a : ℚ) / 100000 := by
  unfold parseUnsigned
  rw [dropWhile_append_dot _ _ fun c hc => natChars_no_dot hc]
  rw [takeWhile_append_dot _ _ fun c hc => natChars_no_dot hc]
  show (charsNat (natChars (a / 100000)) : ℚ) +
      (charsNat (pad5 (natChars (a % 100000))) : ℚ) /
        (10 : ℚ) ^ (pad5 (natChars (a % 100000))).length = (a : ℚ) / 100000
  have hfrac : charsNat (pad5 (natChars (a % 100000))) = a % 100000 := by
    unfold pad5
    rw [charsNat_pad_zeros, charsNat_natChars]
  have hlen : (pad5 (natChars (a % 100000))).length = 5 := by
    unfold pad5
    rw [List.length_append, List.length_replicate]
    have hlt : a % 100000 < 100000 := Nat.mod_lt a (by norm_num)
    have := natChars_length_le hlt
    omega
  rw [charsNat_natChars, hfrac, hlen]
  rw [show ((10 : ℚ) ^ 5 = 100000) by norm_num]
  exact nat_div_add_mod_q a

theorem parseField_fmt5 (q : ℚ) : parseField (fmt5 q) = round5 q := by
  unfold fmt5 parseField round5
  by_cases hneg : round (q * 100000) < 0
  · rw [if_pos hneg]
    rw [List.singleton_append]
    have hh : ('-' :: (natChars ((round (q * 100000)).natAbs / 100000) ++
        '.' :: pad5 (natChars ((round (q * 100000)).natAbs % 100000)))).head? =
          some '-' := rfl
    rw [if_pos hh]
    simp only [List.drop_succ_cons, List.drop_zero]
    rw [parseUnsigned_body]
    have habs : (((round (q * 100000)).natAbs : ℕ) : ℚ) =
        -((round (q * 100000) : ℤ) : ℚ) := by
      rw [Int.cast_natAbs]
      exact_mod_cast abs_of_nonpos hneg.le
    rw [habs]
    ring
  · rw [if_neg hneg]
    rw [List.nil_append]
    obtain ⟨a, t, hcs⟩ :=
      List.exists_cons_of_ne_nil (natChars_ne_nil ((round (q * 100000)).natAbs / 100000))
    have ha : a ≠ '-' := natChars_no_minus (hcs ▸ List.mem_cons_self a t)
    rw [hcs, List.cons_append, if_neg (by simp [ha]), ← List.cons_append, ← hcs]
    rw [parseUnsigned_body]
    have habs : (((round (q * 100000)).natAbs : ℕ) : ℚ) =
        ((round (q * 100000) : ℤ) : ℚ) := by
      rw [Int.cast_natAbs]
      exact_mod_cast abs_of_nonneg (not_lt.mp hneg)
    rw [habs]

/-! ## Helper lemmas: row- and matrix-level round trip -/

theorem row_fields_no_space (i : Nat) (row : List ℚ) :
    ∀ f ∈ natChars i :: row.map fmt5, ∀ c ∈ f, c ≠ ' ' := by
  intro f hf c hc
  rcases List.mem_cons.mp hf with rfl | hf
  · exact natChars_no_space hc
  · obtain ⟨q, _, rfl⟩ := List.mem_map.mp hf
    exact fmt5_no_space q c hc

theorem splitFields_row (i : Nat) (row : List ℚ) :
    splitFields (joinSpace (natChars i :: row.map fmt5)) = natChars i :: row.map fmt5 :=
  splitFields_joinSpace _ (List.cons_ne_nil _ _) (row_fields_no_space i row)

theorem parse_row (i : Nat) (row : List ℚ) :
    (splitFields (joinSpace (natChars i :: row.map fmt5))).map parseField =
      (i : ℚ) :: row.map round5 := by
  rw [splitFields_row, List.map_cons, parseField_natChars, List.map_map]
  have : parseField ∘ fmt5 = round5 := funext parseField_fmt5
  rw [this]

theorem matrixLines_get (m : DistMatrix) (j i : Nat) :
    (matrixLines j m).get? i =
      (m.get? i).map fun row => joinSpace (natChars (j + i) :: row.map fmt5) := by
  induction m generalizing j i with
  | nil => simp [matrixLines]
  | cons row rest ih =>
    cases i with
    | zero => simp [matrixLines]
    | succ k =>
      rw [matrixLines]
      show (matrixLines (j + 1) rest).get? k = _
      rw [ih (j + 1) k]
      have harith : j + 1 + k = j + (k + 1) := by omega
      rw [harith]
      rfl

theorem loadtxt_savetxt (n : Nat) (m : DistMatrix) :
    drop_index_column (np_loadtxt_skip1 (savetxt_dist n m)) =
      m.map (List.map round5) := by
  unfold savetxt_dist np_loadtxt_skip1 drop_index_column
  rw [List.drop_succ_cons, List.drop_zero]
  suffices h : ∀ j, (((matrixLines j m).map String.mk).map
      (fun line => (splitFields line.toList).map parseField)).map (List.drop 1) =
      m.map (List.map round5) from h 0
  intro j
  induction m generalizing j with
  | nil => rfl
  | cons row rest ih =>
    rw [matrixLines]
    simp only [List.map_cons]
    rw [show (String.mk (joinSpace (natChars j :: row.map fmt5))).toList =
        joinSpace (natChars j :: row.map fmt5) from rfl]
    rw [parse_row, List.drop_succ_cons, List.drop_zero, ih (j + 1)]

theorem round5_abs_le (q : ℚ) : |round5 q - q| ≤ 1 / 200000 := by
  unfold round5
  have h := abs_sub_round (q * 100000)
  have h2 : ((round (q * 100000) : ℤ) : ℚ) / 100000 - q =
      -((q * 100000 - ((round (q * 100000) : ℤ) : ℚ)) / 100000) := by
    ring
  rw [h2, abs_neg, abs_div, abs_of_pos (show (0:ℚ) < 100000 by norm_num)]
  rw [div_le_div_iff₀ (by norm_num) (by norm_num)]
  linarith

/-! ## Helper lemmas: `evaluate` projections -/

theorem evaluate_dist_step_tree (app : ClustalOmegaApp) (out : ToolOutput) :
    (evaluate_dist_step app out).tree = app.tree := by
  unfold evaluate_dist_step
  split <;> rfl

theorem evaluate_dist_step_mbed (app : ClustalOmegaApp) (out : ToolOutput) :
    (evaluate_dist_step app out).mbed = app.mbed := by
  unfold evaluate_dist_step
  split <;> rfl

theorem evaluate_tree_step_mbed (app : ClustalOmegaApp) (out : ToolOutput) :
    (evaluate_tree_step app out).mbed = app.mbed := by
  unfold evaluate_tree_step
  split <;> rfl

theorem evaluate_tree_step_dist (app : ClustalOmegaApp) (out : ToolOutput) :
    (evaluate_tree_step app out).dist_matrix = app.dist_matrix := by
  unfold evaluate_tree_step
  split <;> rfl

theorem evaluate_state (app : ClustalOmegaApp) (out : ToolOutput) :
    (evaluate app out).state = AppState.JOINED := rfl

theorem evaluate_mbed (app : ClustalOmegaApp) (out : ToolOutput) :
    (evaluate app out).mbed = app.mbed := by
  show (evaluate_tree_step (evaluate_dist_step app out) out).mbed = app.mbed
  rw [evaluate_tree_step_mbed, evaluate_dist_step_mbed]

theorem evaluate_tree_of_some (app : ClustalOmegaApp) (out : ToolOutput)
    (t : Tree) (h : app.tree = some t) : (evaluate app out).tree = some t := by
  show (evaluate_tree_step (evaluate_dist_step app out) out).tree = some t
  unfold evaluate_tree_step
  split <;> rename_i heq
  · rw [evaluate_dist_step_tree, h] at heq
    exact absurd heq (by simp)
  · rw [evaluate_dist_step_tree, h] at heq
    rw [evaluate_dist_step_tree, h]

theorem evaluate_tree_of_none (app : ClustalOmegaApp) (out : ToolOutput)
    (h : app.tree = none) :
    (evaluate app out).tree =
      some (Tree.from_newick (removeNewlines out.tree_text)) := by
  show (evaluate_tree_step (evaluate_dist_step app out) out).tree = _
  unfold evaluate_tree_step
  split <;> rename_i heq
  · rfl
  · rw [evaluate_dist_step_tree, h] at heq
    exact absurd heq (by simp)

theorem evaluate_dist_of_full (app : ClustalOmegaApp) (out : ToolOutput)
    (h : app.mbed = false) :
    (evaluate app out).dist_matrix =
      some (drop_index_column (np_loadtxt_skip1 out.dist_lines)) := by
  show (evaluate_tree_step (evaluate_dist_step app out) out).dist_matrix = _
  rw [evaluate_tree_step_dist]
  unfold evaluate_dist_step
  rw [h]
  rfl

/-! ## Claim theorems -/

/-- C1 counterexample: a mixed collection whose first element is a
`NucleotideSequence` and whose second is a `ProteinSequence` does NOT fail
with a TypeKind error — construction succeeds (and picks the DNA seqtype from
the first element alone), refuting "for every collection of mixed types …
construction fails with a TypeKind error". -/
theorem init_mixed_collection_succeeds :
    init [SeqKind.nucleotide, SeqKind.protein] samplePaths =
      .ok { seqtype := "DNA", seq_count := 2, mbed := true, dist_matrix := none,
            tree := none, paths := samplePaths, state := AppState.CREATED } := rfl

/-- C1 (amended): construction looks only at the first element —
it succeeds whenever the first element is a nucleotide or protein sequence
(regardless of the types of the remaining elements) and fails with a TypeKind
error exactly when the first element is of an unsupported type. -/
theorem init_checks_first_element (paths : TempPaths)
    (s0 : SeqKind) (rest : List SeqKind) :
    ((s0 = SeqKind.nucleotide ∨ s0 = SeqKind.protein) →
      ∃ app, init (s0 :: rest) paths = .ok app) ∧
    (∀ typeName, s0 = SeqKind.unsupported typeName →
      init (s0 :: rest) paths = .error (.typeError
        ("Clustal-Omega cannot align sequences of type " ++ typeName))) := by
  constructor
  · rintro (rfl | rfl) <;> exact ⟨_, rfl⟩
  · rintro typeName rfl
    rfl

/-- C1 witness: the amended theorem applied to a concrete homogeneous protein
collection. -/
theorem init_checks_first_element_witness :
    ∃ app, init [SeqKind.protein, SeqKind.protein] samplePaths = .ok app :=
  (init_checks_first_element samplePaths SeqKind.protein [SeqKind.protein]).1
    (Or.inr rfl)

/-- C2 counterexample: on a joined adapter that ran in mbed (approximate)
mode, `get_distance_matrix` raises a `ValueError` — the same exception class
as the ValueKind errors — not the StateKind error of the lifecycle guard,
refuting "always fails with a StateKind error". -/
theorem get_distance_matrix_mbed_error_is_value_error :
    raises_state_error (get_distance_matrix sampleJoinedMbed) = false ∧
    get_distance_matrix sampleJoinedMbed = .error (.valueError
      "Getting the distance matrix requires 'full_matrix_calculation()'") :=
  ⟨rfl, rfl⟩

/-- C2 (amended): for every adapter in the JOINED state,
`get_distance_matrix` fails with a ValueKind (`ValueError`) error when the
run was performed in approximate (mbed) mode, regardless of run outcome; in
full-matrix mode it does not raise and returns the stored matrix. -/
theorem get_distance_matrix_joined (app : ClustalOmegaApp)
    (h : app.state = AppState.JOINED) :
    (app.mbed = true →
      get_distance_matrix app = .error (.valueError
        "Getting the distance matrix requires 'full_matrix_calculation()'")) ∧
    (app.mbed = false → get_distance_matrix app = .ok app.dist_matrix) := by
  unfold get_distance_matrix requires_state
  rw [h, if_pos rfl]
  constructor
  · intro hm
    simp [hm]
  · intro hm
    simp [hm]

/-- C2 witness: the amended theorem applied to concrete joined adapters in
each mode. -/
theorem get_distance_matrix_joined_witness :
    get_distance_matrix sampleJoinedMbed = .error (.valueError
      "Getting the distance matrix requires 'full_matrix_calculation()'") ∧
    get_distance_matrix sampleJoinedFull = .ok (some sampleMatrix) :=
  ⟨(get_distance_matrix_joined sampleJoinedMbed rfl).1 rfl,
   (get_distance_matrix_joined sampleJoinedFull rfl).2 rfl⟩

/-- C3: in the CREATED state, `set_guide_tree` fails with a ValueKind error
exactly when the tree's leaf count differs from the adapter's sequence
count; with an equal count it succeeds and records the tree. -/
theorem set_guide_tree_leaf_count (app : ClustalOmegaApp) (t : Tree)
    (hstate : app.state = AppState.CREATED) :
    (t.leaf_count ≠ app.seq_count →
      set_guide_tree app t = .error (.valueError
        ("Tree with " ++ toString t.leaf_count ++
         " leaves is not sufficient for {self._seq_count} sequences, must be equal"))) ∧
    (t.leaf_count = app.seq_count →
      set_guide_tree app t = .ok { app with tree := some t }) := by
  unfold set_guide_tree requires_state
  rw [hstate, if_pos rfl]
  constructor
  · intro hne
    show (if app.seq_count ≠ t.leaf_count then _ else _) = _
    rw [if_pos (Ne.symm hne)]
  · intro heq
    show (if app.seq_count ≠ t.leaf_count then _ else _) = _
    rw [if_neg (fun hc => hc heq.symm), hstate]

/-- C3 witness: the theorem applied to a concrete adapter with two sequences
and a two-leaf tree. -/
theorem set_guide_tree_leaf_count_witness :
    set_guide_tree sampleCreated sampleTree2 =
      .ok { sampleCreated with tree := some sampleTree2 } :=
  (set_guide_tree_leaf_count sampleCreated sampleTree2 rfl).2 rfl

/-- C8: every configuration operation (`full_matrix_calculation`,
`set_distance_matrix`, `set_guide_tree`) raises the StateKind guard error in
any lifecycle state other than CREATED, and every result accessor
(`get_distance_matrix`, `get_guide_tree`) raises it in any state other than
JOINED; the erroring call returns no updated adapter, so the configuration is
unchanged. -/
theorem guarded_operations_state_errors (app : ClustalOmegaApp)
    (m : DistMatrix) (t : Tree) :
    (app.state ≠ AppState.CREATED →
      full_matrix_calculation app = .error (.appStateError
        "The application is in an invalid state for this operation") ∧
      set_distance_matrix app m = .error (.appStateError
        "The application is in an invalid state for this operation") ∧
      set_guide_tree app t = .error (.appStateError
        "The application is in an invalid state for this operation")) ∧
    (app.state ≠ AppState.JOINED →
      get_distance_matrix app = .error (.appStateError
        "The application is in an invalid state for this operation") ∧
      get_guide_tree app = .error (.appStateError
        "The application is in an invalid state for this operation")) := by
  constructor
  · intro h
    unfold full_matrix_calculation set_distance_matrix set_guide_tree requires_state
    simp only [if_neg h]
    exact ⟨trivial, trivial, trivial⟩
  · intro h
    unfold get_distance_matrix get_guide_tree requires_state
    simp only [if_neg h]
    exact ⟨trivial, trivial⟩

/-- C8 witness: the theorem applied to a concrete adapter in the RUNNING
state, where both setters and getters are disallowed. -/
theorem guarded_operations_state_errors_witness :
    full_matrix_calculation sampleRunning = .error (.appStateError
      "The application is in an invalid state for this operation") ∧
    get_guide_tree sampleRunning = .error (.appStateError
      "The application is in an invalid state for this operation") :=
  ⟨((guarded_operations_state_errors sampleRunning sampleMatrix sampleTree2).1
      (by decide)).1,
   ((guarded_operations_state_errors sampleRunning sampleMatrix sampleTree2).2
      (by decide)).2⟩

/-- C9: for every adapter brought to JOINED by `evaluate`, `get_guide_tree`
returns a non-None tree: exactly the supplied tree when one was set before the
run, and otherwise the tree parsed (newline characters stripped) from the
tool's guide-tree output file. -/
theorem get_guide_tree_after_evaluate (app : ClustalOmegaApp) (out : ToolOutput) :
    (∀ t, app.tree = some t → get_guide_tree (evaluate app out) = .ok (some t)) ∧
    (app.tree = none →
      get_guide_tree (evaluate app out) =
        .ok (some (Tree.from_newick (removeNewlines out.tree_text)))) := by
  constructor
  · intro t ht
    unfold get_guide_tree requires_state
    rw [evaluate_state app out, if_pos rfl]
    simp [evaluate_tree_of_some app out t ht]
  · intro hnone
    unfold get_guide_tree requires_state
    rw [evaluate_state app out, if_pos rfl]
    simp [evaluate_tree_of_none app out hnone]

/-- C9 witness: the theorem applied to a concrete adapter with a supplied
tree, and to one without (whose tree comes from the sample output file). -/
theorem get_guide_tree_after_evaluate_witness :
    get_guide_tree (evaluate sampleCreatedWithTree sampleOut) = .ok (some sampleTree2) ∧
    get_guide_tree (evaluate sampleCreated sampleOut) =
      .ok (some (Tree.from_newick (removeNewlines sampleOut.tree_text))) :=
  ⟨(get_guide_tree_after_evaluate sampleCreatedWithTree sampleOut).1 sampleTree2 rfl,
   (get_guide_tree_after_evaluate sampleCreated sampleOut).2 rfl⟩

/-- C10: when a distance matrix was supplied and full-matrix mode is on,
`evaluate` overwrites the stored matrix with the matrix read back from the
tool's output file, so `get_distance_matrix` in JOINED returns the
tool-computed matrix (the caller-supplied matrix is returned only if it
happens to equal it). -/
theorem evaluate_overwrites_supplied_matrix (app : ClustalOmegaApp)
    (out : ToolOutput) (m : DistMatrix)
    (hm : app.dist_matrix = some m) (hfull : app.mbed = false) :
    (evaluate app out).dist_matrix =
      some (drop_index_column (np_loadtxt_skip1 out.dist_lines)) ∧
    get_distance_matrix (evaluate app out) =
      .ok (some (drop_index_column (np_loadtxt_skip1 out.dist_lines))) := by
  have hd := evaluate_dist_of_full app out hfull
  refine ⟨hd, ?_⟩
  unfold get_distance_matrix requires_state
  rw [evaluate_state app out, if_pos rfl]
  simp [evaluate_mbed app out, hfull, hd]

/-- C10 witness: the theorem applied to the concrete full-mode adapter with a
supplied matrix. -/
theorem evaluate_overwrites_supplied_matrix_witness :
    get_distance_matrix (evaluate sampleCreatedFull sampleOut) =
      .ok (some (drop_index_column (np_loadtxt_skip1 sampleOut.dist_lines))) :=
  (evaluate_overwrites_supplied_matrix sampleCreatedFull sampleOut
      sampleMatrix rfl rfl).2

/-! ## Helper lemmas: argument-list membership -/

set_option maxHeartbeats 1000000 in
theorem run_args_subset (app : ClustalOmegaApp) :
    ∀ s ∈ (run app).args,
      s ∈ (["--in", "--out", "--seqtype", "--output-order=tree-order"] : List String) ∨
      s = app.paths.input_file ∨ s = app.paths.output_file ∨ s = app.seqtype ∨
      (app.tree = none ∧ (s = "--guidetree-out" ∨ s = app.paths.out_tree)) ∨
      (app.mbed = false ∧
        (s = "--full" ∨ s = "--distmat-out" ∨ s = app.paths.out_dist_matrix)) ∨
      ((∃ dm, app.dist_matrix = some dm) ∧
        (s = "--distmat-in" ∨ s = app.paths.in_dist_matrix)) ∨
      ((∃ t, app.tree = some t) ∧
        (s = "--guidetree-in" ∨ s = app.paths.in_tree)) := by
  intro s hs
  rcases happ : app.tree with _ | t <;>
    rcases hmbed : app.mbed with _ | _ <;>
      rcases hdm : app.dist_matrix with _ | dm <;>
        simp [run, happ, hmbed, hdm] at hs <;>
        simp [happ, hmbed, hdm] <;>
        tauto

theorem flag_ne_path {p fl : String} (hfl : fl ∈ cli_flags) (hp : p ∉ cli_flags) :
    fl ≠ p :=
  fun h => hp (h ▸ hfl)

/-- C4: when a guide tree was supplied (even together with full-matrix mode),
the argument list never contains `--guidetree-out`; with no guide tree and
approximate (mbed) mode — the default — it contains `--guidetree-out` but
neither `--full` nor `--distmat-out`.  The path hypotheses say the temp-file
and FASTA paths are not themselves spelled like one of the tool's option
tokens. -/
theorem run_tree_and_mode_flags (app : ClustalOmegaApp)
    (hpaths : ∀ s ∈ [app.paths.in_dist_matrix, app.paths.out_dist_matrix,
      app.paths.in_tree, app.paths.out_tree, app.paths.input_file,
      app.paths.output_file], s ∉ cli_flags)
    (hseq : app.seqtype = "DNA" ∨ app.seqtype = "Protein") :
    (app.tree ≠ none → "--guidetree-out" ∉ (run app).args) ∧
    (app.tree = none → app.mbed = true →
      "--guidetree-out" ∈ (run app).args ∧
      "--full" ∉ (run app).args ∧
      "--distmat-out" ∉ (run app).args) := by
  constructor
  · intro htree hmem
    rcases run_args_subset app _ hmem with h | h | h | h | h | h | h | h
    · simp at h
    · exact absurd h (flag_ne_path (by simp [cli_flags]) (hpaths _ (by simp)))
    · exact absurd h (flag_ne_path (by simp [cli_flags]) (hpaths _ (by simp)))
    · rcases hseq with hs | hs <;> rw [hs] at h <;> simp at h
    · exact htree h.1
    · rcases h.2 with h2 | h2 | h2
      · simp at h2
      · simp at h2
      · exact absurd h2 (flag_ne_path (by simp [cli_flags]) (hpaths _ (by simp)))
    · rcases h.2 with h2 | h2
      · simp at h2
      · exact absurd h2 (flag_ne_path (by simp [cli_flags]) (hpaths _ (by simp)))
    · rcases h.2 with h2 | h2
      · simp at h2
      · exact absurd h2 (flag_ne_path (by simp [cli_flags]) (hpaths _ (by simp)))
  · intro hnone hmbed
    refine ⟨by simp [run, hnone], ?_, ?_⟩
    · intro hmem
      rcases run_args_subset app _ hmem with h | h | h | h | h | h | h | h
      · simp at h
      · exact absurd h (flag_ne_path (by simp [cli_flags]) (hpaths _ (by simp)))
      · exact absurd h (flag_ne_path (by simp [cli_flags]) (hpaths _ (by simp)))
      · rcases hseq with hs | hs <;> rw [hs] at h <;> simp at h
      · rcases h.2 with h2 | h2
        · simp at h2
        · exact absurd h2 (flag_ne_path (by simp [cli_flags]) (hpaths _ (by simp)))
      · rw [hmbed] at h
        simp at h
      · rcases h.2 with h2 | h2
        · simp at h2
        · exact absurd h2 (flag_ne_path (by simp [cli_flags]) (hpaths _ (by simp)))
      · obtain ⟨⟨t, ht⟩, _⟩ := h
        rw [hnone] at ht
        simp at ht
    · intro hmem
      rcases run_args_subset app _ hmem with h | h | h | h | h | h | h | h
      · simp at h
      · exact absurd h (flag_ne_path (by simp [cli_flags]) (hpaths _ (by simp)))
      · exact absurd h (flag_ne_path (by simp [cli_flags]) (hpaths _ (by simp)))
      · rcases hseq with hs | hs <;> rw [hs] at h <;> simp at h
      · rcases h.2 with h2 | h2
        · simp at h2
        · exact absurd h2 (flag_ne_path (by simp [cli_flags]) (hpaths _ (by simp)))
      · rw [hmbed] at h
        simp at h
      · rcases h.2 with h2 | h2
        · simp at h2
        · exact absurd h2 (flag_ne_path (by simp [cli_flags]) (hpaths _ (by simp)))
      · obtain ⟨⟨t, ht⟩, _⟩ := h
        rw [hnone] at ht
        simp at ht

/-- C4 witness: the theorem applied to a concrete adapter with a supplied
tree plus full-matrix mode, and to the default configuration. -/
theorem run_tree_and_mode_flags_witness :
    "--guidetree-out" ∉
      (run { sampleCreatedWithTree with mbed := false }).args ∧
    ("--guidetree-out" ∈ (run sampleCreated).args ∧
      "--full" ∉ (run sampleCreated).args ∧
      "--distmat-out" ∉ (run sampleCreated).args) :=
  ⟨(run_tree_and_mode_flags { sampleCreatedWithTree with mbed := false }
      (by simp [sampleCreatedWithTree, sampleCreated, samplePaths, cli_flags])
      (Or.inr rfl)).1
      (by simp [sampleCreatedWithTree, sampleCreated, sampleTree2]),
   (run_tree_and_mode_flags sampleCreated
      (by simp [sampleCreated, samplePaths, cli_flags]) (Or.inr rfl)).2 rfl rfl⟩

/-- C5: every argument list built by `run` starts with the input file path
(after `--in`), the output file path (after `--out`), the sequence-type flag
(`--seqtype` followed by the adapter's seqtype) and `--output-order=tree-order`;
and every successfully constructed adapter's seqtype is `DNA` or `Protein`. -/
theorem run_args_fixed_part (app : ClustalOmegaApp) :
    (∃ rest, (run app).args =
      "--in" :: app.paths.input_file :: "--out" :: app.paths.output_file ::
        "--seqtype" :: app.seqtype :: "--output-order=tree-order" :: rest) ∧
    (∀ seqs paths a, init seqs paths = .ok a →
      a.seqtype = "DNA" ∨ a.seqtype = "Protein") := by
  constructor
  · exact ⟨_, rfl⟩
  · intro seqs paths a h
    cases seqs with
    | nil => exact absurd h (by simp [init])
    | cons s0 rest =>
      cases s0 with
      | nucleotide =>
        simp only [init, Except.ok.injEq] at h
        subst h
        exact Or.inl rfl
      | protein =>
        simp only [init, Except.ok.injEq] at h
        subst h
        exact Or.inr rfl
      | unsupported typeName => exact absurd h (by simp [init])

/-- C5 witness: the theorem applied to the concrete sample adapter and its
constructor call. -/
theorem run_args_fixed_part_witness :
    (∃ rest, (run sampleCreated).args =
      "--in" :: samplePaths.input_file :: "--out" :: samplePaths.output_file ::
        "--seqtype" :: sampleCreated.seqtype ::
          "--output-order=tree-order" :: rest) ∧
    (({ seqtype := "Protein", seq_count := 2, mbed := true, dist_matrix := none,
        tree := none, paths := samplePaths,
        state := AppState.CREATED } : ClustalOmegaApp).seqtype = "DNA" ∨
     ({ seqtype := "Protein", seq_count := 2, mbed := true, dist_matrix := none,
        tree := none, paths := samplePaths,
        state := AppState.CREATED } : ClustalOmegaApp).seqtype = "Protein") :=
  ⟨(run_args_fixed_part sampleCreated).1,
   (run_args_fixed_part sampleCreated).2 [SeqKind.protein, SeqKind.protein]
     samplePaths _ rfl⟩

theorem get_append_pair {α : Type} (L R : List α) (x y : α) :
    (L ++ x :: y :: R).get? L.length = some x ∧
    (L ++ x :: y :: R).get? (L.length + 1) = some y := by
  constructor
  · rw [List.get?_append_right (le_refl L.length)]
    simp
  · rw [List.get?_append_right (by omega)]
    have h1 : L.length + 1 - L.length = 1 := by omega
    rw [h1]
    rfl

/-- C6: for every supplied N×N distance matrix, `run` serializes it to a text
file whose first line is the sequence count and whose line `i+1` is the row
index `i` followed by the row's values at fixed 5-decimal precision,
space-separated, and the argument list gains `--distmat-in` followed by that
file's path. -/
theorem run_serializes_distance_matrix (app : ClustalOmegaApp) (m : DistMatrix)
    (hm : app.dist_matrix = some m)
    (hrows : m.length = app.seq_count)
    (hcols : ∀ row ∈ m, row.length = app.seq_count) :
    (run app).dist_matrix_file = some (savetxt_dist app.seq_count m) ∧
    (savetxt_dist app.seq_count m).head? =
      some (String.mk (natChars app.seq_count)) ∧
    (∀ i row, m.get? i = some row →
      (savetxt_dist app.seq_count m).get? (i + 1) =
        some (String.mk (joinSpace (natChars i :: row.map fmt5)))) ∧
    (∃ k, (run app).args.get? k = some "--distmat-in" ∧
      (run app).args.get? (k + 1) = some app.paths.in_dist_matrix) := by
  refine ⟨by simp [run, hm], rfl, ?_, ?_⟩
  · intro i row hrow
    unfold savetxt_dist
    rw [List.get?_cons_succ, List.get?_map, matrixLines_get m 0 i, hrow]
    rw [Nat.zero_add]
    rfl
  · have hargs : (run app).args =
        (["--in", app.paths.input_file, "--out", app.paths.output_file,
          "--seqtype", app.seqtype, "--output-order=tree-order"] ++
         (match app.tree with
          | none => ["--guidetree-out", app.paths.out_tree]
          | some _ => []) ++
         (if app.mbed then []
          else ["--full", "--distmat-out", app.paths.out_dist_matrix])) ++
        ("--distmat-in" :: app.paths.in_dist_matrix ::
         (match app.tree with
          | some _ => ["--guidetree-in", app.paths.in_tree]
          | none => [])) := by
      simp only [run, hm]
      rw [List.append_assoc]
      rfl
    rw [hargs]
    exact ⟨_, (get_append_pair _ _ _ _).1, (get_append_pair _ _ _ _).2⟩

/-- C6 witness: the theorem applied to the concrete full-mode adapter with
the sample 2×2 matrix. -/
theorem run_serializes_distance_matrix_witness :
    (run sampleCreatedFull).dist_matrix_file =
      some (savetxt_dist sampleCreatedFull.seq_count sampleMatrix) ∧
    ∃ k, (run sampleCreatedFull).args.get? k = some "--distmat-in" ∧
      (run sampleCreatedFull).args.get? (k + 1) =
        some sampleCreatedFull.paths.in_dist_matrix :=
  ⟨(run_serializes_distance_matrix sampleCreatedFull sampleMatrix rfl rfl
      (by decide)).1,
   (run_serializes_distance_matrix sampleCreatedFull sampleMatrix rfl rfl
      (by decide)).2.2.2⟩

/-- C7: serializing any distance matrix to the custom text format as `run`
does, then reading it back skipping the one-line count header and dropping
the leading index column as `evaluate` does, yields exactly the matrix of
values rounded to 5 decimal places — i.e. the original matrix up to
5-decimal precision, each entry differing by at most half of 10^-5. -/
theorem distance_matrix_roundtrip (n : Nat) (m : DistMatrix) :
    drop_index_column (np_loadtxt_skip1 (savetxt_dist n m)) =
      m.map (List.map round5) ∧
    ∀ q : ℚ, |round5 q - q| ≤ 1 / 200000 :=
  ⟨loadtxt_savetxt n m, round5_abs_le⟩

end ClustalO
